import Mathlib

/-! The OAuth2 handler of hydra (`oauth2/handler.go`): a shallow embedding.

The four HTTP handlers of `oauth2/handler.go` are translated into pure
functions that return the list of effects they perform, in order.  Everything
the handlers reach through an interface or a library (the fosite grant engine,
the consent strategy, the cookie store, `net/url`, `net/http`, the process
environment) is a field of a structure of functions, so that every theorem
holds for every behaviour of those collaborators.

Conventions.
* A Go pointer that is handed to a collaborator is modelled by passing the
  pointed-to value in and getting the (possibly mutated) value back.
* A Go run-time panic (failed type assertion, nil dereference) ends the trace
  with `Event.Panic`.
* `logrus` debug output is not part of the model; `pkg.LogError` is
  (`Event.LogError`), because it separates what the server logs from what the
  caller is sent.
-/

namespace Hydra

/-! ## Values of the Go standard library -/

/-- Go `error` values as built by `github.com/pkg/errors`: `errors.New(text)`
and `errors.Wrap(cause, message)` (`Wrapf` is `Wrap` of the formatted
message). -/
inductive Error where
  | New (text : String)
  | Wrap (cause : Error) (message : String)
  deriving DecidableEq, Repr

/-- The method `Error()` of an error: the text of `errors.New`, and
`message + ": " + cause.Error()` for a wrapped error. -/
def Error.Text : Error → String
  | .New text => text
  | .Wrap cause message => message ++ ": " ++ cause.Text

/-- The function `errors.Cause`: the innermost error of a chain of wraps. -/
def Error.Cause : Error → Error
  | .New text => .New text
  | .Wrap cause _ => cause.Cause

/-- A Go `interface{}` value, by dynamic type.  `nil` is the nil interface;
`other` stands for every dynamic type the handler never asserts. -/
inductive Value where
  | nil
  | string (s : String)
  | int64 (n : Int)
  | float64 (bits : Nat)
  | bool (b : Bool)
  | other (typeName : String)
  deriving DecidableEq, Repr

/-- The type assertion `v.(string)` in its one-result form: `none` is the
run-time panic. -/
def Value.assertString : Value → Option String
  | .string s => some s
  | _ => none

/-- The type assertion `v.(int64)` in its one-result form: `none` is the
run-time panic. -/
def Value.assertInt64 : Value → Option Int
  | .int64 n => some n
  | _ => none

/-- A Go `map[string]interface{}` as an association list; the first entry of a
key is the entry of the map. -/
abbrev Claims := List (String × Value)

/-- The index expression `m[key]` of a `map[string]interface{}`: the nil
interface when the key is absent. -/
def index (m : Claims) (key : String) : Value :=
  match m.lookup key with
  | some v => v
  | none => Value.nil

/-- A `url.Values` (also an `http.Header`): `map[string][]string` as an
association list; the first entry of a key is the entry of the map. -/
structure Values where
  entries : List (String × List String)
  deriving DecidableEq, Repr

/-- The index expression `v[key]`: the nil slice when the key is absent. -/
def Values.find (v : Values) (key : String) : List String :=
  match v.entries.lookup key with
  | some vs => vs
  | none => []

/-- The method `Values.Get`: the first value of the key, or the empty string. -/
def Values.Get (v : Values) (key : String) : String :=
  match v.find key with
  | [] => ""
  | x :: _ => x

/-- The method `Values.Set`: `v[key] = []string{value}`. -/
def Values.Set (v : Values) (key value : String) : Values :=
  ⟨(key, [value]) :: v.entries.filter (fun p => p.1 != key)⟩

/-- The method `Values.Add`: `v[key] = append(v[key], value)`. -/
def Values.Add (v : Values) (key value : String) : Values :=
  ⟨(key, v.find key ++ [value]) :: v.entries.filter (fun p => p.1 != key)⟩

/-- A `url.URL`, by the fields the handler touches (`RawQuery`) and the rest. -/
structure URL where
  Scheme : String
  Host : String
  Path : String
  RawQuery : String
  Fragment : String
  deriving DecidableEq, Repr

/-- An `http.Request`, inbound or outbound. -/
structure Request where
  Method : String
  Host : String
  URL : URL
  Header : Values
  Body : String
  deriving DecidableEq, Repr

/-- An `http.Response` of the outbound client. -/
structure Response where
  Status : String
  Body : String
  deriving DecidableEq, Repr

/-- The integer `x` wrapped to the range of a Go `int64`. -/
def wrapInt64 (x : Int) : Int :=
  (x + 9223372036854775808) % 18446744073709551616 - 9223372036854775808

/-- A `time.Time` without its location and monotonic reading: seconds since
January 1, year 1, 00:00:00 UTC, and nanoseconds within the second. -/
structure Time where
  sec : Int
  nsec : Int
  deriving DecidableEq, Repr

/-- The constant `unixToInternal` of package `time`: the seconds from year 1
to 1970. -/
def unixToInternal : Int := 62135596800

/-- The method `Time.IsZero`. -/
def Time.IsZero (t : Time) : Bool :=
  t.sec == 0 && t.nsec == 0

/-- The method `Time.Unix`: seconds since January 1, 1970 UTC. -/
def Time.Unix (t : Time) : Int :=
  wrapInt64 (t.sec - unixToInternal)

/-- The method `Time.Add` for a duration `d` in nanoseconds: Go divides with
truncation, then carries the nanoseconds into the seconds. -/
def Time.Add (t : Time) (d : Int) : Time :=
  let dsec := Int.tdiv d 1000000000
  let nsec := t.nsec + Int.tmod d 1000000000
  if nsec ≥ 1000000000 then ⟨wrapInt64 (t.sec + (dsec + 1)), nsec - 1000000000⟩
  else if nsec < 0 then ⟨wrapInt64 (t.sec + (dsec - 1)), nsec + 1000000000⟩
  else ⟨wrapInt64 (t.sec + dsec), nsec⟩

/-- The zero `time.Time`. -/
def Time.zero : Time := ⟨0, 0⟩

/-- The time with the given Unix seconds (`time.Unix(s, 0)`). -/
def Time.ofUnix (s : Int) : Time := ⟨s + unixToInternal, 0⟩

/-! ## The data model of the grant engine, as the handler sees it -/

/-- A `fosite.Client`, by the two getters the handler calls. -/
structure Client where
  ID : String
  Scopes : List String
  deriving DecidableEq, Repr

/-- The kinds of token of `fosite.TokenType`. -/
inductive TokenType where
  | AccessToken
  | RefreshToken
  | AuthorizeCode
  | IDToken
  deriving DecidableEq, Repr

/-- Modelled from the spec: the type `Session` of `oauth2/session.go`, which
is not among the sources.  The spec gives its attributes: subject identifier,
expiry per token kind, username, and the extra claims, a mapping of string
keys to opaque values. -/
structure Session where
  Subject : String
  Username : String
  ExpiresAt : List (TokenType × Time)
  Extra : Claims
  deriving DecidableEq, Repr

/-- Modelled from the spec: the constructor `NewSession` of
`oauth2/session.go`, which is not among the sources: a fresh session for the
given subject, with no expiry and no extra claims. -/
def NewSession (subject : String) : Session :=
  ⟨subject, "", [], []⟩

/-- The getter `GetExpiresAt`: the zero time when no expiry is stored for the
kind. -/
def Session.GetExpiresAt (s : Session) (key : TokenType) : Time :=
  match s.ExpiresAt.lookup key with
  | some t => t
  | none => Time.zero

/-- A `fosite.AccessRequester`, by the getters the handlers call. -/
structure AccessRequest where
  GrantTypes : List String
  Client : Client
  RequestedScopes : List String
  GrantedScopes : List String
  RequestedAt : Time
  deriving DecidableEq, Repr

/-- The method `GrantScope`: the scope is appended to the granted scopes. -/
def AccessRequest.GrantScope (ar : AccessRequest) (scope : String) : AccessRequest :=
  { ar with GrantedScopes := ar.GrantedScopes ++ [scope] }

/-- The method `Arguments.Exact` of fosite: the list is the one name. -/
def Exact (r : List String) (name : String) : Bool :=
  match r with
  | [x] => x == name
  | _ => false

/-- A `fosite.AccessResponder`, by the getters the handler calls. -/
structure AccessResponse where
  AccessToken : String
  Extra : Claims
  deriving DecidableEq, Repr

/-- A `fosite.AuthorizeRequester`: the fields the caller supplies, and the
answer of `IsRedirectURIValid()`. -/
structure AuthorizeRequest where
  ClientID : String
  RedirectURI : String
  State : String
  ResponseTypes : List String
  RequestedScopes : List String
  RequestForm : Values
  IsRedirectURIValid : Bool
  deriving DecidableEq, Repr

/-- A `fosite.AuthorizeResponder`. -/
structure AuthorizeResponse where
  Code : String
  Query : Values
  deriving DecidableEq, Repr

/-- A `sessions.Session` of gorilla: the consent cookie. -/
structure Cookie where
  Name : String
  Values : List (String × String)
  deriving DecidableEq, Repr

/-- An `RFC6749Error` of fosite, by the two fields the handler reads. -/
structure RFC6749Error where
  Name : String
  Description : String
  deriving DecidableEq, Repr

/-! ## The collaborators -/

/-- What the handler uses of package `fosite` besides the provider: two error
values, the translation of an error to the RFC6749 taxonomy, and the scope
strategy. -/
structure Fosite where
  ErrAccessDenied : Error
  ErrServerError : Error
  ErrorToRFC6749Error : Error → RFC6749Error
  HierarchicScopeStrategy : List String → String → Bool

/-- The interface `fosite.OAuth2Provider`, by the request/response
constructors the handlers call.  The `Write...` methods only write to the
`http.ResponseWriter`; they are events. -/
structure OAuth2Provider where
  NewAuthorizeRequest : Request → AuthorizeRequest × Option Error
  NewAuthorizeResponse : Request → AuthorizeRequest → Session →
    AuthorizeRequest × Except Error AuthorizeResponse
  NewAccessRequest : Request → Session → AccessRequest × Session × Option Error
  NewAccessResponse : Request → AccessRequest → Session →
    AccessRequest × Session × Except Error AccessResponse
  NewIntrospectionRequest : Request → Session → Except Error (AccessRequest × Session)
  NewRevocationRequest : Request → Option Error

/-- Modelled from the spec: the interface `ConsentStrategy` of
`oauth2/consent_strategy.go`, which is not among the sources.  By the spec's
contract `IssueChallenge(request, returnURL, cookie)` gives a challenge token
or an error and `ValidateResponse(request, responseToken, cookie)` a session
or an error, and both mutate the cookie in place. -/
structure ConsentStrategy where
  IssueChallenge : AuthorizeRequest → String → Cookie → Cookie × Except Error String
  ValidateResponse : AuthorizeRequest → String → Cookie → Cookie × Except Error Session

/-- The interface `sessions.Store` of gorilla.  `Save` is what `cookie.Save(r, w)`
delegates to: `none` means the cookie was written to the response. -/
structure CookieStore where
  Get : Request → String → Cookie × Option Error
  Save : Request → Cookie → Option Error

/-- The struct `Handler`. -/
structure Handler where
  OAuth2 : OAuth2Provider
  Consent : ConsentStrategy
  ForcedHTTP : Bool
  ConsentURL : URL
  AccessTokenLifespan : Int
  CookieStore : CookieStore

/-- Modelled from the spec: the type `Introspection` of the package, which is
not among the sources; the fields are those of the composite literal in
`IntrospectHandler`. -/
structure Introspection where
  Active : Bool
  ClientID : String
  Scope : String
  ExpiresAt : Int
  IssuedAt : Int
  Subject : String
  Username : String
  Extra : Claims
  Audience : String
  deriving DecidableEq, Repr

/-- What the handler uses of the process environment and of the Go standard
library beyond pure data: environment variables, the clock, the outbound HTTP
client (with its TLS configuration), and the parsing and printing of URLs. -/
structure Env where
  Getenv : String → String
  Now : Time
  FormatRFC3339 : Time → String
  NewRequest : String → String → String → Option Request
  Do : Request → Except Error Response
  ReadAll : Response → Except Error String
  WriteJSON : Introspection → Option Error
  ParseQuery : String → Values
  Encode : Values → String
  URLString : URL → String

/-- What a handler does, in order. -/
inductive Event where
  | LogError (err : Error)
  | WriteRevocationResponse (err : Option Error)
  | WriteIntrospectionError (err : Error)
  | HeaderSet (key value : String)
  | HeaderAdd (key value : String)
  | WriteHeader (code : Nat)
  | EncodeJSON (v : Introspection)
  | WriteAccessError (ar : AccessRequest) (err : Error)
  | WriteAccessResponse (ar : AccessRequest) (resp : AccessResponse)
  | CallWotioCreateToken (token : String) (expires_in : Int)
  | CallWotioAssignToken (token : String) (userid : String)
  | SaveCookie (cookie : Cookie)
  | Redirect (url : String) (code : Nat)
  | WriteAuthorizeError (ar : AuthorizeRequest) (err : Error)
  | WriteAuthorizeResponse (ar : AuthorizeRequest) (resp : AuthorizeResponse)
  | Panic (what : String)
  deriving DecidableEq, Repr

/-- How a call of one of the two registration functions ends: it returns its
`error` result (`none` is `nil`), or it panics. -/
inductive Outcome where
  | returned (err : Option Error)
  | panicked
  deriving DecidableEq, Repr

/-! ## The handlers -/

/-- The constant `consentCookieName`. -/
def consentCookieName : String := "consent_session"

/-- The function `WotioCreateToken` of `oauth2/handler.go`, lines 62-90.
`http.NewRequest` returning `(nil, err)` makes `req.Header.Set` dereference a
nil pointer; the status of the response is not looked at. -/
def WotioCreateToken (env : Env) (token : String) (expires_in : Int) : Outcome :=
  let WotioToken := env.Getenv "WOTIO_TOKEN"
  let WotioTokenUrl := env.Getenv "WOTIO_TOKEN_URL"
  if WotioTokenUrl == "" then
    .returned (some (.New "WOTIO_TOKEN_URL is not set."))
  else
    let start := env.Now
    let finish := start.Add (wrapInt64 (wrapInt64 expires_in * 1000000000))
    let json := "\x7b \"token\": \"" ++ token ++ "\", \"start\": \"" ++ env.FormatRFC3339 start
      ++ "\", \"end\": \"" ++ env.FormatRFC3339 finish ++ "\" \x7d"
    match env.NewRequest "POST" WotioTokenUrl json with
    | none => .panicked
    | some req =>
      let req := { req with Header := req.Header.Set "Content-Type" "application/json" }
      let req := { req with Header := req.Header.Set "Authorization" ("Bearer " ++ WotioToken) }
      match env.Do req with
      | .error err => .returned (some err)
      | .ok resp =>
        match env.ReadAll resp with
        | .error err => .returned (some err)
        | .ok _ => .returned none

/-- The function `WotioAssignToken` of `oauth2/handler.go`, lines 92-114.  The
variable it tests is `WOTIO_ASSIGNMENT_URL`; the error of `ioutil.ReadAll` is
dropped. -/
def WotioAssignToken (env : Env) (token : String) (userid : String) : Outcome :=
  let WotioToken := env.Getenv "WOTIO_TOKEN"
  let WotioAssignmentUrl := env.Getenv "WOTIO_ASSIGNMENT_URL"
  if WotioAssignmentUrl == "" then
    .returned (some (.New "WOTIO_TOKEN_URL is not set."))
  else
    let json := "\x7b \"token\": \"" ++ token ++ "\", \"userid\": \"" ++ userid ++ "\"\x7d"
    match env.NewRequest "POST" WotioAssignmentUrl json with
    | none => .panicked
    | some req =>
      let req := { req with Header := req.Header.Set "Authorization" ("Bearer " ++ WotioToken) }
      let req := { req with Header := req.Header.Set "Content-Type" "application/json" }
      match env.Do req with
      | .error err => .returned (some err)
      | .ok _ => .returned none

/-- The method `RevocationHandler`, lines 138-147. -/
def RevocationHandler (h : Handler) (r : Request) : List Event :=
  match h.OAuth2.NewRevocationRequest r with
  | some err => [.LogError err, .WriteRevocationResponse (some err)]
  | none => [.WriteRevocationResponse none]

/-- The composite literal of `IntrospectHandler`, lines 160-176, for the
access requester `ar` of the introspection response and its session.  The
handler hands the engine a `*Session` to fill, so the assertion
`GetSession().(*Session)` is on that dynamic type. -/
def introspection (h : Handler) (ar : AccessRequest) (session : Session) : Introspection :=
  let exp := session.GetExpiresAt .AccessToken
  let exp := if exp.IsZero then ar.RequestedAt.Add h.AccessTokenLifespan else exp
  { Active := true
    ClientID := ar.Client.ID
    Scope := " ".intercalate ar.GrantedScopes
    ExpiresAt := exp.Unix
    IssuedAt := ar.RequestedAt.Unix
    Subject := session.Subject
    Username := session.Username
    Extra := session.Extra
    Audience := ar.Client.ID }

/-- The method `IntrospectHandler`, lines 149-180. -/
def IntrospectHandler (env : Env) (h : Handler) (r : Request) : List Event :=
  let session := NewSession ""
  match h.OAuth2.NewIntrospectionRequest r session with
  | .error err => [.LogError err, .WriteIntrospectionError err]
  | .ok (ar, session) =>
    let v := introspection h ar session
    [.HeaderSet "Content-Type" "application/json;charset=UTF-8", .EncodeJSON v] ++
      match env.WriteJSON v with
      | some err => [.LogError err]
      | none => []

/-- The loop of `TokenHandler`, lines 195-199, over the requested scopes that
are still to be visited. -/
def grantScopes (lib : Fosite) (accessRequest : AccessRequest) : List String → AccessRequest
  | [] => accessRequest
  | scope :: rest =>
    if lib.HierarchicScopeStrategy accessRequest.Client.Scopes scope then
      grantScopes lib (accessRequest.GrantScope scope) rest
    else
      grantScopes lib accessRequest rest

/-- The client-credentials block of `TokenHandler`, lines 193-200: the access
request and the session as they are when `NewAccessResponse` is called. -/
def clientCredentials (lib : Fosite) (accessRequest : AccessRequest) (session : Session) :
    AccessRequest × Session :=
  if Exact accessRequest.GrantTypes "client_credentials" then
    (grantScopes lib accessRequest accessRequest.RequestedScopes,
      { session with Subject := accessRequest.Client.ID })
  else
    (accessRequest, session)

/-- The end of `TokenHandler`, lines 209-224: the registration of the token
when the session carries `user_id`, then the access response. -/
def registerAndWrite (env : Env) (accessRequest : AccessRequest) (session : Session)
    (accessResponse : AccessResponse) : List Event :=
  if index session.Extra "user_id" != Value.nil then
    match (index accessResponse.Extra "expires_in").assertInt64 with
    | none => [.Panic "interface conversion: interface is not int64"]
    | some expires_in =>
      .CallWotioCreateToken accessResponse.AccessToken expires_in ::
      match WotioCreateToken env accessResponse.AccessToken expires_in with
      | .panicked => [.Panic "invalid memory address or nil pointer dereference"]
      | .returned (some err) => [.LogError err, .WriteAccessError accessRequest err]
      | .returned none =>
        match (index session.Extra "user_id").assertString with
        | none => [.Panic "interface conversion: interface is not string"]
        | some userid =>
          .CallWotioAssignToken accessResponse.AccessToken userid ::
          match WotioAssignToken env accessResponse.AccessToken userid with
          | .panicked => [.Panic "invalid memory address or nil pointer dereference"]
          | .returned (some err) => [.LogError err, .WriteAccessError accessRequest err]
          | .returned none => [.WriteAccessResponse accessRequest accessResponse]
  else
    [.WriteAccessResponse accessRequest accessResponse]

/-- The part of `TokenHandler` from the call of `NewAccessResponse` on, lines
202-224, for the access request and the session as they are at that call. -/
def respond (env : Env) (h : Handler) (r : Request) (accessRequest : AccessRequest)
    (session : Session) : List Event :=
  match h.OAuth2.NewAccessResponse r accessRequest session with
  | (accessRequest, _, .error err) => [.LogError err, .WriteAccessError accessRequest err]
  | (accessRequest, session, .ok accessResponse) =>
    registerAndWrite env accessRequest session accessResponse

/-- The method `TokenHandler`, lines 182-225. -/
def TokenHandler (lib : Fosite) (env : Env) (h : Handler) (r : Request) : List Event :=
  let session := NewSession ""
  match h.OAuth2.NewAccessRequest r session with
  | (accessRequest, _, some err) => [.LogError err, .WriteAccessError accessRequest err]
  | (accessRequest, session, none) =>
    let granted := clientCredentials lib accessRequest session
    respond env h r granted.1 granted.2

/-- The method `writeAuthorizeError`, lines 309-325. -/
def writeAuthorizeError (lib : Fosite) (env : Env) (h : Handler) (ar : AuthorizeRequest)
    (err : Error) : List Event :=
  if !ar.IsRedirectURIValid then
    let rfcerr := lib.ErrorToRFC6749Error err
    let redirectURI := h.ConsentURL
    let query := env.ParseQuery redirectURI.RawQuery
    let query := query.Add "error" rfcerr.Name
    let query := query.Add "error_description" rfcerr.Description
    let redirectURI := { redirectURI with RawQuery := env.Encode query }
    [.HeaderAdd "Location" (env.URLString redirectURI), .WriteHeader 302]
  else
    [.WriteAuthorizeError ar err]

/-- The URL `redirectToConsent` asks the consent endpoint to come back to,
lines 283-286 and 291: `schema+"://"+r.Host+r.URL.String()`. -/
def returnURL (env : Env) (h : Handler) (r : Request) : String :=
  let schema := if h.ForcedHTTP then "http" else "https"
  schema ++ "://" ++ r.Host ++ env.URLString r.URL

/-- The method `redirectToConsent`, lines 282-307: what it writes, and the
error it returns. -/
def redirectToConsent (env : Env) (h : Handler) (r : Request) (authorizeRequest : AuthorizeRequest) :
    List Event × Option Error :=
  let cookie := (h.CookieStore.Get r consentCookieName).1
  match h.Consent.IssueChallenge authorizeRequest (returnURL env h r) cookie with
  | (_, .error err) => ([], some err)
  | (cookie, .ok challenge) =>
    let p := h.ConsentURL
    let q := env.ParseQuery p.RawQuery
    let q := q.Set "challenge" challenge
    let p := { p with RawQuery := env.Encode q }
    match h.CookieStore.Save r cookie with
    | some err => ([], some err)
    | none => ([.SaveCookie cookie, .Redirect (env.URLString p) 302], none)

/-- The part of `AuthHandler` that handles a consent proof, lines 249-279. -/
def consented (lib : Fosite) (env : Env) (h : Handler) (r : Request)
    (authorizeRequest : AuthorizeRequest) (consentToken : String) : List Event :=
  match h.CookieStore.Get r consentCookieName with
  | (_, some err) =>
    .LogError err :: writeAuthorizeError lib env h authorizeRequest
      (.Wrap lib.ErrServerError ("Could not open session: " ++ err.Text))
  | (cookie, none) =>
    match h.Consent.ValidateResponse authorizeRequest consentToken cookie with
    | (_, .error err) =>
      .LogError err :: writeAuthorizeError lib env h authorizeRequest (.Wrap lib.ErrAccessDenied "")
    | (cookie, .ok session) =>
      match h.CookieStore.Save r cookie with
      | some err =>
        .LogError err :: writeAuthorizeError lib env h authorizeRequest
          (.Wrap lib.ErrServerError ("Could not store session cookie: " ++ err.Text))
      | none =>
        .SaveCookie cookie ::
        match h.OAuth2.NewAuthorizeResponse r authorizeRequest session with
        | (authorizeRequest, .error err) =>
          .LogError err :: writeAuthorizeError lib env h authorizeRequest err
        | (authorizeRequest, .ok response) => [.WriteAuthorizeResponse authorizeRequest response]

/-- The method `AuthHandler`, lines 227-280. -/
def AuthHandler (lib : Fosite) (env : Env) (h : Handler) (r : Request) : List Event :=
  match h.OAuth2.NewAuthorizeRequest r with
  | (authorizeRequest, some err) =>
    .LogError err :: writeAuthorizeError lib env h authorizeRequest err
  | (authorizeRequest, none) =>
    let consentToken := authorizeRequest.RequestForm.Get "consent"
    if consentToken == "" then
      match redirectToConsent env h r authorizeRequest with
      | (written, some err) =>
        written ++ .LogError err :: writeAuthorizeError lib env h authorizeRequest err
      | (written, none) => written
    else
      consented lib env h r authorizeRequest consentToken

/-- What of a trace reaches the caller: everything but the server's log. -/
def sent (trace : List Event) : List Event :=
  trace.filter fun e =>
    match e with
    | .LogError _ => false
    | _ => true

/-! ## Concrete collaborators, for evaluating the handlers -/

/-- Modelled from the spec: the function `HierarchicScopeStrategy` of fosite,
which is not among the sources: "a requested scope is granted if it matches or
is a sub-scope of any scope the client is allowed", the allowed scope being
"equal to or a more general prefix of it". -/
def HierarchicScopeStrategy (haystack : List String) (needle : String) : Bool :=
  haystack.any fun this => this == needle || this.data.isPrefixOf needle.data

namespace Demo

/-- A fosite whose error taxonomy knows two names. -/
def lib : Fosite where
  ErrAccessDenied := .New "access_denied"
  ErrServerError := .New "server_error"
  ErrorToRFC6749Error := fun err =>
    if err.Cause == .New "access_denied" then ⟨"access_denied", "denied"⟩
    else ⟨"server_error", "unexpected"⟩
  HierarchicScopeStrategy := HierarchicScopeStrategy

/-- An environment in which both registration URLs are set and every outbound
call succeeds; the clock shows Unix second 200. -/
def env : Env where
  Getenv := fun name =>
    if name == "WOTIO_TOKEN_URL" then "https://wot/token"
    else if name == "WOTIO_ASSIGNMENT_URL" then "https://wot/assign"
    else "secret"
  Now := Time.ofUnix 200
  FormatRFC3339 := fun _ => "T"
  NewRequest := fun method url body => some ⟨method, "", ⟨"", "", url, "", ""⟩, ⟨[]⟩, body⟩
  Do := fun _ => .ok ⟨"200 OK", ""⟩
  ReadAll := fun resp => .ok resp.Body
  WriteJSON := fun _ => none
  ParseQuery := fun raw => if raw == "" then ⟨[]⟩ else ⟨[("q", [raw])]⟩
  Encode := fun v => "&".intercalate (v.entries.map fun p => p.1 ++ "=" ++ ",".intercalate p.2)
  URLString := fun u => u.Scheme ++ "://" ++ u.Host ++ u.Path ++ "?" ++ u.RawQuery

/-- The environment `env` without the variable `WOTIO_TOKEN_URL`. -/
def envNoTokenURL : Env :=
  { env with Getenv := fun name => if name == "WOTIO_TOKEN_URL" then "" else env.Getenv name }

/-- The function `http.NewRequest` on the URL `://bad`, which `url.Parse`
refuses (missing protocol scheme): it returns `(nil, err)`, here `none`. -/
def newRequestStrict (method url body : String) : Option Request :=
  if url == "://bad" then none else env.NewRequest method url body

/-- The environment `env` with `WOTIO_TOKEN_URL` set to the malformed URL
`://bad`. -/
def envBadTokenURL : Env :=
  { env with
    Getenv := fun name => if name == "WOTIO_TOKEN_URL" then "://bad" else env.Getenv name
    NewRequest := newRequestStrict }

/-- The environment `env` with `WOTIO_ASSIGNMENT_URL` set to the malformed URL
`://bad`. -/
def envBadAssignmentURL : Env :=
  { env with
    Getenv := fun name => if name == "WOTIO_ASSIGNMENT_URL" then "://bad" else env.Getenv name
    NewRequest := newRequestStrict }

/-- The environment `env` with a registration server that answers every call
with the status 500. -/
def envRefusing : Env :=
  { env with Do := fun _ => .ok ⟨"500 Internal Server Error", "refused"⟩ }

/-- The client of the examples: it may ask for the scope `read`. -/
def client : Client := ⟨"client-1", ["read"]⟩

/-- A client-credentials request for `read` and `write:admin`. -/
def accessRequest : AccessRequest :=
  ⟨["client_credentials"], client, ["read", "write:admin"], [], Time.ofUnix 100⟩

/-- A cookie store that always opens and saves the cookie. -/
def cookieStore : CookieStore where
  Get := fun _ name => (⟨name, []⟩, none)
  Save := fun _ _ => none

/-- A cookie store that opens the cookie and fails to save it. -/
def cookieStoreFull : CookieStore where
  Get := fun _ name => (⟨name, []⟩, none)
  Save := fun _ _ => some (.New "disk full")

/-- A consent strategy that issues the challenge `ch` and accepts every
response for the subject `u1` with the extra claim `user_id`. -/
def consent : ConsentStrategy where
  IssueChallenge := fun _ _ cookie => (⟨cookie.Name, [("nonce", "n")]⟩, .ok "ch")
  ValidateResponse := fun _ _ cookie => (cookie, .ok ⟨"u1", "", [], [("user_id", .string "abc")]⟩)

/-- A consent strategy that rejects every response with the given error. -/
def consentRejecting (err : Error) : ConsentStrategy where
  IssueChallenge := fun _ _ cookie => (cookie, .error err)
  ValidateResponse := fun _ _ cookie => (cookie, .error err)

/-- An authorize request with a registered redirect URI; `proof` is the value
of its form field `consent`. -/
def authorizeRequest (proof : String) : AuthorizeRequest :=
  ⟨"client-1", "https://app/cb", "st", ["code"], ["read"], ⟨[("consent", [proof])]⟩, true⟩

/-- The access request stored with an introspected token: `read` and `write`
were granted. -/
def granted : AccessRequest :=
  { accessRequest with GrantedScopes := ["read", "write"] }

/-- The session stored with an introspected token, for the subject `u1`. -/
def stored (sessionExtra : Claims) (expiry : Time) : Session :=
  ⟨"u1", "", [(.AccessToken, expiry)], sessionExtra⟩

/-- A grant engine that accepts every request.  Its token request is the
client-credentials request above; the session of an issued token carries the
given extra claims, and the access response the given extras; the stored
session of an introspected token expires at the given time. -/
def engine (proof : String) (sessionExtra responseExtra : Claims) (expiry : Time) : OAuth2Provider where
  NewAuthorizeRequest := fun _ => (authorizeRequest proof, none)
  NewAuthorizeResponse := fun _ ar _ => (ar, .ok ⟨"code-1", ⟨[]⟩⟩)
  NewAccessRequest := fun _ session => (accessRequest, session, none)
  NewAccessResponse := fun _ ar session =>
    (ar, { session with Extra := sessionExtra }, .ok ⟨"tok", responseExtra⟩)
  NewIntrospectionRequest := fun _ _ => .ok (granted, stored sessionExtra expiry)
  NewRevocationRequest := fun _ => none

/-- The configured consent URL. -/
def consentURL : URL := ⟨"https", "consent.example", "/consent", "", ""⟩

/-- A handler over the given engine, consent strategy and cookie store, with
an access-token lifespan of one hour. -/
def handler (oauth2 : OAuth2Provider) (consent : ConsentStrategy) (store : CookieStore) : Handler :=
  ⟨oauth2, consent, false, consentURL, 3600000000000, store⟩

/-- An inbound request. -/
def request : Request := ⟨"POST", "hydra.example", ⟨"", "", "/oauth2", "", ""⟩, ⟨[]⟩, ""⟩

end Demo

/-! ## Lemmas on the data model -/

theorem grantScopes_client (lib : Fosite) (rest : List String) (ar : AccessRequest) :
    grantScopes lib ar rest =
      { ar with GrantedScopes :=
          ar.GrantedScopes ++ rest.filter (lib.HierarchicScopeStrategy ar.Client.Scopes) } := by
  induction rest generalizing ar with
  | nil => simp [grantScopes]
  | cons scope rest ih =>
    unfold grantScopes
    by_cases hs : lib.HierarchicScopeStrategy ar.Client.Scopes scope = true
    · simp [hs, ih, AccessRequest.GrantScope]
    · simp [hs, ih]

theorem sent_writeAuthorizeError (lib : Fosite) (env : Env) (h : Handler) (ar : AuthorizeRequest)
    (err : Error) :
    sent (writeAuthorizeError lib env h ar err) = writeAuthorizeError lib env h ar err := by
  unfold writeAuthorizeError sent
  cases ar.IsRedirectURIValid <;> simp

theorem find_Set (q : Values) (key value k : String) :
    (q.Set key value).find k = if k = key then [value] else q.find k := by
  unfold Values.Set Values.find
  by_cases hk : k = key
  · subst hk
    simp [List.lookup]
  · have hne : (k == key) = false := by simpa using hk
    simp only [List.lookup, hne, if_neg hk]
    congr 1
    induction q.entries with
    | nil => rfl
    | cons p rest ih =>
      by_cases hp : p.1 = key
      · have hkp : (k == p.1) = false := by simpa [hp] using hk
        simp [List.filter, hp, List.lookup, hne, ih]
      · have hpk : (p.1 != key) = true := by simpa using hp
        simp only [List.filter, hpk, List.lookup]
        cases hkp : (k == p.1) <;> simp [ih]

theorem find_Add (q : Values) (key value k : String) :
    (q.Add key value).find k = if k = key then q.find key ++ [value] else q.find k := by
  unfold Values.Add
  by_cases hk : k = key
  · subst hk
    simp [Values.find, List.lookup]
  · have hne : (k == key) = false := by simpa using hk
    have hset := find_Set q key value k
    unfold Values.Set at hset
    simp only [Values.find, List.lookup, hne, if_neg hk] at hset ⊢
    exact hset

/-! ## The token endpoint -/

/-- C1: when the grant engine accepts a token request whose grant types are
exactly `client_credentials`, the handler goes on to call `NewAccessResponse`
with nothing written before; the access request it passes has, appended to the
scopes granted before and in request order, exactly the requested scopes that
pass `HierarchicScopeStrategy` against the client's scopes, every other field
of the request is unchanged, and the session it receives has the client's id
as subject. -/
theorem client_credentials_grants_authorized_scopes (lib : Fosite) (env : Env) (h : Handler)
    (r : Request) (accessRequest : AccessRequest) (session : Session)
    (haccept : h.OAuth2.NewAccessRequest r (NewSession "") = (accessRequest, session, none))
    (hexact : accessRequest.GrantTypes = ["client_credentials"]) :
    clientCredentials lib accessRequest session =
        ({ accessRequest with
            GrantedScopes := (accessRequest.GrantedScopes ++ accessRequest.RequestedScopes.filter
              (fun s => lib.HierarchicScopeStrategy accessRequest.Client.Scopes s)) },
          { session with Subject := accessRequest.Client.ID }) ∧
      TokenHandler lib env h r =
        respond env h r
          { accessRequest with
            GrantedScopes := (accessRequest.GrantedScopes ++ accessRequest.RequestedScopes.filter
              (fun s => lib.HierarchicScopeStrategy accessRequest.Client.Scopes s)) }
          { session with Subject := accessRequest.Client.ID } := by
  have hcc : clientCredentials lib accessRequest session =
      ({ accessRequest with
          GrantedScopes := (accessRequest.GrantedScopes ++ accessRequest.RequestedScopes.filter
            (fun s => lib.HierarchicScopeStrategy accessRequest.Client.Scopes s)) },
        { session with Subject := accessRequest.Client.ID }) := by
    simp [clientCredentials, hexact, Exact, grantScopes_client]
  refine ⟨hcc, ?_⟩
  simp only [TokenHandler, haccept, hcc]

/-- C1, evaluated: a client allowed `read` that asks for `read` and
`write:admin` is granted exactly `read`, and the response is written. -/
theorem client_credentials_grants_authorized_scopes_witness :
    (clientCredentials Demo.lib Demo.accessRequest (NewSession "")).1.GrantedScopes = ["read"] ∧
      (clientCredentials Demo.lib Demo.accessRequest (NewSession "")).2.Subject = "client-1" ∧
      TokenHandler Demo.lib Demo.env
          (Demo.handler (Demo.engine "" [] [] Time.zero) Demo.consent Demo.cookieStore)
          Demo.request =
        [.WriteAccessResponse { Demo.accessRequest with GrantedScopes := ["read"] } ⟨"tok", []⟩] := by
  have hthm := client_credentials_grants_authorized_scopes Demo.lib Demo.env
    (Demo.handler (Demo.engine "" [] [] Time.zero) Demo.consent Demo.cookieStore)
    Demo.request Demo.accessRequest (NewSession "") rfl rfl
  refine ⟨?_, ?_, ?_⟩
  · rw [hthm.1]; decide
  · rw [hthm.1]; decide
  · rw [hthm.2]; decide

theorem WotioCreateToken_unset (env : Env) (token : String) (expires_in : Int)
    (hurl : env.Getenv "WOTIO_TOKEN_URL" = "") :
    WotioCreateToken env token expires_in =
      .returned (some (.New "WOTIO_TOKEN_URL is not set.")) := by
  simp [WotioCreateToken, hurl]

theorem WotioAssignToken_unset (env : Env) (token userid : String)
    (hurl : env.Getenv "WOTIO_ASSIGNMENT_URL" = "") :
    WotioAssignToken env token userid =
      .returned (some (.New "WOTIO_TOKEN_URL is not set.")) := by
  simp [WotioAssignToken, hurl]

theorem WotioCreateToken_panicked (env : Env) (token : String) (expires_in : Int)
    (hpanic : WotioCreateToken env token expires_in = .panicked) :
    env.Getenv "WOTIO_TOKEN_URL" ≠ "" ∧
      ∃ body, env.NewRequest "POST" (env.Getenv "WOTIO_TOKEN_URL") body = none := by
  unfold WotioCreateToken at hpanic
  by_cases hurl : env.Getenv "WOTIO_TOKEN_URL" = ""
  · simp [hurl] at hpanic
  · refine ⟨hurl, ?_⟩
    simp only [beq_iff_eq, hurl, if_false] at hpanic
    split at hpanic
    · next hreq => exact ⟨_, hreq⟩
    · split at hpanic
      · cases hpanic
      · split at hpanic <;> cases hpanic

theorem WotioAssignToken_panicked (env : Env) (token userid : String)
    (hpanic : WotioAssignToken env token userid = .panicked) :
    env.Getenv "WOTIO_ASSIGNMENT_URL" ≠ "" ∧
      ∃ body, env.NewRequest "POST" (env.Getenv "WOTIO_ASSIGNMENT_URL") body = none := by
  unfold WotioAssignToken at hpanic
  by_cases hurl : env.Getenv "WOTIO_ASSIGNMENT_URL" = ""
  · simp [hurl] at hpanic
  · refine ⟨hurl, ?_⟩
    simp only [beq_iff_eq, hurl, if_false] at hpanic
    split at hpanic
    · next hreq => exact ⟨_, hreq⟩
    · split at hpanic <;> cases hpanic

theorem registerAndWrite_response (env : Env) (ar a : AccessRequest) (session : Session)
    (accessResponse resp : AccessResponse)
    (hmarker : index session.Extra "user_id" ≠ Value.nil)
    (hmem : Event.WriteAccessResponse a resp ∈ registerAndWrite env ar session accessResponse) :
    ∃ n u, (index accessResponse.Extra "expires_in").assertInt64 = some n ∧
      (index session.Extra "user_id").assertString = some u ∧
      WotioCreateToken env accessResponse.AccessToken n = .returned none ∧
      WotioAssignToken env accessResponse.AccessToken u = .returned none := by
  have hb : (index session.Extra "user_id" != Value.nil) = true := by simpa using hmarker
  unfold registerAndWrite at hmem
  simp only [hb, if_true] at hmem
  cases hn : (index accessResponse.Extra "expires_in").assertInt64 with
  | none => simp [hn] at hmem
  | some n =>
    cases hc : WotioCreateToken env accessResponse.AccessToken n with
    | panicked => simp [hn, hc] at hmem
    | returned o =>
      cases o with
      | some e => simp [hn, hc] at hmem
      | none =>
        cases hu : (index session.Extra "user_id").assertString with
        | none => simp [hn, hc, hu] at hmem
        | some u =>
          cases ha : WotioAssignToken env accessResponse.AccessToken u with
          | panicked => simp [hn, hc, hu, ha] at hmem
          | returned o2 =>
            cases o2 with
            | some e => simp [hn, hc, hu, ha] at hmem
            | none => exact ⟨n, u, rfl, rfl, hc, ha⟩

/-- What the registration block of `TokenHandler` does, for each way the two
calls can end, when the grant engine accepts a token request and the session
carries a non-nil `user_id`: an access response is written only if
`WotioCreateToken` and `WotioAssignToken` both returned nil; when one of them
returns an error the handler logs it and writes it with `WriteAccessError`
(`WotioAssignToken` is not called after an error of `WotioCreateToken`); when
one of them panics the trace ends there, with nothing written; and when one
of the two registration URLs is unset no access response is written. -/
theorem registration_outcomes (lib : Fosite) (env : Env) (h : Handler) (r : Request)
    (accessRequest accessRequest2 : AccessRequest) (session session2 : Session)
    (accessResponse : AccessResponse)
    (haccept : h.OAuth2.NewAccessRequest r (NewSession "") = (accessRequest, session, none))
    (hresp : h.OAuth2.NewAccessResponse r (clientCredentials lib accessRequest session).1
      (clientCredentials lib accessRequest session).2 =
        (accessRequest2, session2, .ok accessResponse))
    (hmarker : index session2.Extra "user_id" ≠ Value.nil) :
    (∀ a resp, Event.WriteAccessResponse a resp ∈ TokenHandler lib env h r →
        ∃ n u, (index accessResponse.Extra "expires_in").assertInt64 = some n ∧
          (index session2.Extra "user_id").assertString = some u ∧
          WotioCreateToken env accessResponse.AccessToken n = .returned none ∧
          WotioAssignToken env accessResponse.AccessToken u = .returned none) ∧
      (∀ n e, (index accessResponse.Extra "expires_in").assertInt64 = some n →
        WotioCreateToken env accessResponse.AccessToken n = .returned (some e) →
        TokenHandler lib env h r =
          [.CallWotioCreateToken accessResponse.AccessToken n, .LogError e,
            .WriteAccessError accessRequest2 e]) ∧
      (∀ n u e, (index accessResponse.Extra "expires_in").assertInt64 = some n →
        (index session2.Extra "user_id").assertString = some u →
        WotioCreateToken env accessResponse.AccessToken n = .returned none →
        WotioAssignToken env accessResponse.AccessToken u = .returned (some e) →
        TokenHandler lib env h r =
          [.CallWotioCreateToken accessResponse.AccessToken n,
            .CallWotioAssignToken accessResponse.AccessToken u, .LogError e,
            .WriteAccessError accessRequest2 e]) ∧
      (∀ n, (index accessResponse.Extra "expires_in").assertInt64 = some n →
        WotioCreateToken env accessResponse.AccessToken n = .panicked →
        TokenHandler lib env h r =
          [.CallWotioCreateToken accessResponse.AccessToken n,
            .Panic "invalid memory address or nil pointer dereference"]) ∧
      (∀ n u, (index accessResponse.Extra "expires_in").assertInt64 = some n →
        (index session2.Extra "user_id").assertString = some u →
        WotioCreateToken env accessResponse.AccessToken n = .returned none →
        WotioAssignToken env accessResponse.AccessToken u = .panicked →
        TokenHandler lib env h r =
          [.CallWotioCreateToken accessResponse.AccessToken n,
            .CallWotioAssignToken accessResponse.AccessToken u,
            .Panic "invalid memory address or nil pointer dereference"]) ∧
      (env.Getenv "WOTIO_TOKEN_URL" = "" ∨ env.Getenv "WOTIO_ASSIGNMENT_URL" = "" →
        ∀ a resp, Event.WriteAccessResponse a resp ∉ TokenHandler lib env h r) := by
  have htr : TokenHandler lib env h r =
      registerAndWrite env accessRequest2 session2 accessResponse := by
    simp only [TokenHandler, haccept, respond, hresp]
  have hb : (index session2.Extra "user_id" != Value.nil) = true := by simpa using hmarker
  have honly := fun a resp hmem =>
    registerAndWrite_response env accessRequest2 a session2 accessResponse resp hmarker hmem
  rw [htr]
  refine ⟨honly, ?_, ?_, ?_, ?_, ?_⟩
  · intro n e hn hc
    simp [registerAndWrite, hb, hn, hc]
  · intro n u e hn hu hc ha
    simp [registerAndWrite, hb, hn, hu, hc, ha]
  · intro n hn hc
    simp [registerAndWrite, hb, hn, hc]
  · intro n u hn hu hc ha
    simp [registerAndWrite, hb, hn, hu, hc, ha]
  · intro hunset a resp hmem
    obtain ⟨n, u, _, _, hc, ha⟩ := honly a resp hmem
    rcases hunset with hurl | hurl
    · rw [WotioCreateToken_unset env _ n hurl] at hc
      exact absurd hc (by simp)
    · rw [WotioAssignToken_unset env _ u hurl] at ha
      exact absurd ha (by simp)

/-- With `WOTIO_TOKEN_URL` unset the exchange of a token whose session carries
`user_id` ends in `WriteAccessError`. -/
theorem registration_outcomes_unset_url :
    TokenHandler Demo.lib Demo.envNoTokenURL
        (Demo.handler
          (Demo.engine "" [("user_id", .string "abc")] [("expires_in", .int64 3600)] Time.zero)
          Demo.consent Demo.cookieStore)
        Demo.request =
      [.CallWotioCreateToken "tok" 3600, .LogError (.New "WOTIO_TOKEN_URL is not set."),
        .WriteAccessError { Demo.accessRequest with GrantedScopes := ["read"] }
          (.New "WOTIO_TOKEN_URL is not set.")] :=
  (registration_outcomes Demo.lib Demo.envNoTokenURL
    (Demo.handler
      (Demo.engine "" [("user_id", .string "abc")] [("expires_in", .int64 3600)] Time.zero)
      Demo.consent Demo.cookieStore)
    Demo.request Demo.accessRequest { Demo.accessRequest with GrantedScopes := ["read"] }
    (NewSession "")
    { NewSession "" with Subject := "client-1", Extra := [("user_id", .string "abc")] }
    ⟨"tok", [("expires_in", .int64 3600)]⟩ rfl rfl (by decide)).2.1 3600
    (.New "WOTIO_TOKEN_URL is not set.") rfl rfl

/-- Neither registration function reads the status of the response: with a
registration server that answers 500 to both calls, both return nil and the
access response is written. -/
theorem registration_ignores_status :
    TokenHandler Demo.lib Demo.envRefusing
        (Demo.handler
          (Demo.engine "" [("user_id", .string "abc")] [("expires_in", .int64 3600)] Time.zero)
          Demo.consent Demo.cookieStore)
        Demo.request =
      [.CallWotioCreateToken "tok" 3600, .CallWotioAssignToken "tok" "abc",
        .WriteAccessResponse { Demo.accessRequest with GrantedScopes := ["read"] }
          ⟨"tok", [("expires_in", .int64 3600)]⟩] := by
  decide

/-- C4, evaluated on the code: the session carries `user_id` and the
registration fails because `http.NewRequest` refuses the configured URL.  With
a malformed `WOTIO_TOKEN_URL` the call of `WotioCreateToken` panics on the nil
request; with a malformed `WOTIO_ASSIGNMENT_URL` the token is created and the
call of `WotioAssignToken` panics.  In both runs the failure is not written
through `WriteAccessError`: nothing is written at all. -/
theorem registration_failure_is_not_written :
    WotioCreateToken Demo.envBadTokenURL "tok" 3600 = .panicked ∧
    TokenHandler Demo.lib Demo.envBadTokenURL
        (Demo.handler
          (Demo.engine "" [("user_id", .string "abc")] [("expires_in", .int64 3600)] Time.zero)
          Demo.consent Demo.cookieStore)
        Demo.request =
      [.CallWotioCreateToken "tok" 3600,
        .Panic "invalid memory address or nil pointer dereference"] ∧
    WotioAssignToken Demo.envBadAssignmentURL "tok" "abc" = .panicked ∧
    TokenHandler Demo.lib Demo.envBadAssignmentURL
        (Demo.handler
          (Demo.engine "" [("user_id", .string "abc")] [("expires_in", .int64 3600)] Time.zero)
          Demo.consent Demo.cookieStore)
        Demo.request =
      [.CallWotioCreateToken "tok" 3600, .CallWotioAssignToken "tok" "abc",
        .Panic "invalid memory address or nil pointer dereference"] := by
  refine ⟨?_, ?_, ?_, ?_⟩ <;> decide

/-- C10, evaluated on the code: with a `user_id` that is not a string the
handler registers the token and then panics on `.(string)`, and with no
`expires_in` it panics on `.(int64)`; in both runs neither an access response
nor an access error is written. -/
theorem token_handler_panics_on_type_assertion :
    TokenHandler Demo.lib Demo.env
        (Demo.handler
          (Demo.engine "" [("user_id", .float64 42)] [("expires_in", .int64 3600)] Time.zero)
          Demo.consent Demo.cookieStore)
        Demo.request =
      [.CallWotioCreateToken "tok" 3600,
        .Panic "interface conversion: interface is not string"] ∧
    TokenHandler Demo.lib Demo.env
        (Demo.handler (Demo.engine "" [("user_id", .string "abc")] [] Time.zero)
          Demo.consent Demo.cookieStore)
        Demo.request =
      [.Panic "interface conversion: interface is not int64"] := by
  constructor <;> decide

/-! ## The authorization endpoint -/

theorem writeAuthorizeError_no_redirect (lib : Fosite) (env : Env) (h : Handler)
    (ar : AuthorizeRequest) (err : Error) (url : String) (code : Nat) :
    Event.Redirect url code ∉ writeAuthorizeError lib env h ar err := by
  unfold writeAuthorizeError
  cases ar.IsRedirectURIValid <;> simp

theorem writeAuthorizeError_no_response (lib : Fosite) (env : Env) (h : Handler)
    (ar a : AuthorizeRequest) (err : Error) (resp : AuthorizeResponse) :
    Event.WriteAuthorizeResponse a resp ∉ writeAuthorizeError lib env h ar err := by
  unfold writeAuthorizeError
  cases ar.IsRedirectURIValid <;> simp

/-- C2: for an authorize request that carries a consent proof and two consent
strategies whose `ValidateResponse` fails with the errors `e1` and `e2`, the
handler logs the error and calls `writeAuthorizeError` with
`errors.Wrap(fosite.ErrAccessDenied, "")`; what the caller is sent is that
call's output, which does not mention the validation error, and is the same
in both runs. -/
theorem consent_errors_are_indistinguishable (lib : Fosite) (env : Env) (h : Handler)
    (r : Request) (ar : AuthorizeRequest) (cookie c1 c2 : Cookie)
    (consent1 consent2 : ConsentStrategy) (e1 e2 : Error)
    (hreq : h.OAuth2.NewAuthorizeRequest r = (ar, none))
    (hproof : ar.RequestForm.Get "consent" ≠ "")
    (hget : h.CookieStore.Get r consentCookieName = (cookie, none))
    (h1 : consent1.ValidateResponse ar (ar.RequestForm.Get "consent") cookie = (c1, .error e1))
    (h2 : consent2.ValidateResponse ar (ar.RequestForm.Get "consent") cookie = (c2, .error e2)) :
    AuthHandler lib env { h with Consent := consent1 } r =
        .LogError e1 :: writeAuthorizeError lib env h ar (.Wrap lib.ErrAccessDenied "") ∧
      sent (AuthHandler lib env { h with Consent := consent1 } r) =
        writeAuthorizeError lib env h ar (.Wrap lib.ErrAccessDenied "") ∧
      sent (AuthHandler lib env { h with Consent := consent1 } r) =
        sent (AuthHandler lib env { h with Consent := consent2 } r) := by
  have hrun : ∀ (c : ConsentStrategy) (e : Error) (c3 : Cookie),
      c.ValidateResponse ar (ar.RequestForm.Get "consent") cookie = (c3, .error e) →
      AuthHandler lib env { h with Consent := c } r =
        .LogError e :: writeAuthorizeError lib env h ar (.Wrap lib.ErrAccessDenied "") := by
    intro c e c3 hc
    simp [AuthHandler, hreq, hproof, consented, hget, hc, writeAuthorizeError]
  have hsent : ∀ (e : Error),
      sent (.LogError e :: writeAuthorizeError lib env h ar (.Wrap lib.ErrAccessDenied "")) =
        writeAuthorizeError lib env h ar (.Wrap lib.ErrAccessDenied "") := by
    intro e
    have hs := sent_writeAuthorizeError lib env h ar (.Wrap lib.ErrAccessDenied "")
    unfold sent at hs ⊢
    simpa [List.filter] using hs
  refine ⟨hrun consent1 e1 c1 h1, ?_, ?_⟩
  · rw [hrun consent1 e1 c1 h1, hsent]
  · rw [hrun consent1 e1 c1 h1, hrun consent2 e2 c2 h2, hsent, hsent]

/-- C2, evaluated: an expired proof and a proof with the wrong nonce get the
same answer, the engine's error response for the wrapped access-denied. -/
theorem consent_errors_are_indistinguishable_witness :
    sent (AuthHandler Demo.lib Demo.env
        (Demo.handler (Demo.engine "proof" [] [] Time.zero)
          (Demo.consentRejecting (.New "expired")) Demo.cookieStore) Demo.request) =
      [.WriteAuthorizeError (Demo.authorizeRequest "proof") (.Wrap (.New "access_denied") "")] ∧
    sent (AuthHandler Demo.lib Demo.env
        (Demo.handler (Demo.engine "proof" [] [] Time.zero)
          (Demo.consentRejecting (.New "expired")) Demo.cookieStore) Demo.request) =
      sent (AuthHandler Demo.lib Demo.env
        (Demo.handler (Demo.engine "proof" [] [] Time.zero)
          (Demo.consentRejecting (.New "csrf mismatch")) Demo.cookieStore) Demo.request) :=
  ⟨by decide,
    (consent_errors_are_indistinguishable Demo.lib Demo.env
      (Demo.handler (Demo.engine "proof" [] [] Time.zero) Demo.consent Demo.cookieStore)
      Demo.request (Demo.authorizeRequest "proof") ⟨"consent_session", []⟩
      ⟨"consent_session", []⟩ ⟨"consent_session", []⟩
      (Demo.consentRejecting (.New "expired")) (Demo.consentRejecting (.New "csrf mismatch"))
      (.New "expired") (.New "csrf mismatch") rfl (by decide) rfl rfl rfl).2.2⟩

/-- C3: when the redirect URI of the request is not valid, all that
`writeAuthorizeError` writes is a `Location` header and the status 302; the
location is the configured `ConsentURL` whose query is its own query with the
RFC6749 name of the error added under `error` and its description under
`error_description`, every other parameter keeping its values; so two
requests with an invalid redirect URI get the same output for the same error,
whatever their other fields; and the engine's `WriteAuthorizeError` is among
the output only when the redirect URI is valid. -/
theorem invalid_redirect_errors_go_to_consent_url (lib : Fosite) (env : Env) (h : Handler)
    (ar ar2 : AuthorizeRequest) (err : Error) :
    (ar.IsRedirectURIValid = false →
        writeAuthorizeError lib env h ar err =
          [.HeaderAdd "Location" (env.URLString { h.ConsentURL with
              RawQuery := env.Encode (((env.ParseQuery h.ConsentURL.RawQuery).Add "error"
                (lib.ErrorToRFC6749Error err).Name).Add "error_description"
                (lib.ErrorToRFC6749Error err).Description) }),
            .WriteHeader 302]) ∧
      (ar.IsRedirectURIValid = false → ar2.IsRedirectURIValid = false →
        writeAuthorizeError lib env h ar err = writeAuthorizeError lib env h ar2 err) ∧
      (∀ a e, Event.WriteAuthorizeError a e ∈ writeAuthorizeError lib env h ar err →
        ar.IsRedirectURIValid = true) ∧
      (∀ k, (((env.ParseQuery h.ConsentURL.RawQuery).Add "error"
            (lib.ErrorToRFC6749Error err).Name).Add "error_description"
            (lib.ErrorToRFC6749Error err).Description).find k =
          if k = "error_description" then
            (env.ParseQuery h.ConsentURL.RawQuery).find k ++ [(lib.ErrorToRFC6749Error err).Description]
          else if k = "error" then
            (env.ParseQuery h.ConsentURL.RawQuery).find k ++ [(lib.ErrorToRFC6749Error err).Name]
          else (env.ParseQuery h.ConsentURL.RawQuery).find k) := by
  refine ⟨?_, ?_, ?_, ?_⟩
  · intro hinvalid
    simp [writeAuthorizeError, hinvalid]
  · intro hinvalid hinvalid2
    simp [writeAuthorizeError, hinvalid, hinvalid2]
  · intro a e hmem
    cases hv : ar.IsRedirectURIValid with
    | true => rfl
    | false => simp [writeAuthorizeError, hv] at hmem
  · intro k
    rw [find_Add]
    by_cases hd : k = "error_description"
    · subst hd
      simp [find_Add]
    · simp only [if_neg hd, find_Add]
      by_cases he : k = "error"
      · subst he
        simp
      · simp [he]

/-- C3, evaluated: a request with an unregistered redirect URI is answered
with a redirect to the consent URL that carries the error. -/
theorem invalid_redirect_errors_go_to_consent_url_witness :
    writeAuthorizeError Demo.lib Demo.env
        (Demo.handler (Demo.engine "" [] [] Time.zero) Demo.consent Demo.cookieStore)
        { Demo.authorizeRequest "" with RedirectURI := "https://evil/cb", IsRedirectURIValid := false }
        (.New "bad request") =
      [.HeaderAdd "Location"
          "https://consent.example/consent?error_description=unexpected&error=server_error",
        .WriteHeader 302] :=
  (invalid_redirect_errors_go_to_consent_url Demo.lib Demo.env
    (Demo.handler (Demo.engine "" [] [] Time.zero) Demo.consent Demo.cookieStore)
    { Demo.authorizeRequest "" with RedirectURI := "https://evil/cb", IsRedirectURIValid := false }
    (Demo.authorizeRequest "") (.New "bad request")).1 rfl

/-- C5: for an authorize request the engine accepts and whose form has no
`consent` value, let `IssueChallenge` return the cookie `cookie2` and
`result`.  If `result` is a challenge and saving `cookie2` succeeds, the
handler saves the cookie and redirects with 302 to the `ConsentURL` whose
query has `challenge` set to that challenge, every other parameter keeping
its values.  If `IssueChallenge` fails, or saving the cookie fails, the
handler logs the error and calls `writeAuthorizeError` once with it.
`http.Redirect` is called if and only if both succeed, and when the redirect
URI is valid a failure writes nothing but the engine's authorize error. -/
theorem consent_redirect_iff_challenge_and_cookie (lib : Fosite) (env : Env) (h : Handler)
    (r : Request) (ar : AuthorizeRequest) (cookie2 : Cookie) (result : Except Error String)
    (hreq : h.OAuth2.NewAuthorizeRequest r = (ar, none))
    (hnoproof : ar.RequestForm.Get "consent" = "")
    (hissue : h.Consent.IssueChallenge ar (returnURL env h r)
      (h.CookieStore.Get r consentCookieName).1 = (cookie2, result)) :
    (∀ challenge, result = .ok challenge → h.CookieStore.Save r cookie2 = none →
        AuthHandler lib env h r =
          [.SaveCookie cookie2,
            .Redirect (env.URLString { h.ConsentURL with
              RawQuery := env.Encode
                ((env.ParseQuery h.ConsentURL.RawQuery).Set "challenge" challenge) }) 302]) ∧
      (∀ challenge k, ((env.ParseQuery h.ConsentURL.RawQuery).Set "challenge" challenge).find k =
        if k = "challenge" then [challenge] else (env.ParseQuery h.ConsentURL.RawQuery).find k) ∧
      (∀ err, result = .error err →
        AuthHandler lib env h r = .LogError err :: writeAuthorizeError lib env h ar err) ∧
      (∀ challenge err, result = .ok challenge → h.CookieStore.Save r cookie2 = some err →
        AuthHandler lib env h r = .LogError err :: writeAuthorizeError lib env h ar err) ∧
      ((∃ url code, Event.Redirect url code ∈ AuthHandler lib env h r) ↔
        (∃ challenge, result = .ok challenge) ∧ h.CookieStore.Save r cookie2 = none) ∧
      (ar.IsRedirectURIValid = true →
        ((∃ challenge, result = .ok challenge) ∧ h.CookieStore.Save r cookie2 = none) ∨
          ∃ err, AuthHandler lib env h r = [.LogError err, .WriteAuthorizeError ar err]) := by
  have hok : ∀ challenge, result = .ok challenge → h.CookieStore.Save r cookie2 = none →
      AuthHandler lib env h r =
        [.SaveCookie cookie2,
          .Redirect (env.URLString { h.ConsentURL with
            RawQuery := env.Encode
              ((env.ParseQuery h.ConsentURL.RawQuery).Set "challenge" challenge) }) 302] := by
    intro challenge hres hsave
    subst hres
    simp [AuthHandler, hreq, hnoproof, redirectToConsent, hissue, hsave]
  have hfail1 : ∀ err, result = .error err →
      AuthHandler lib env h r = .LogError err :: writeAuthorizeError lib env h ar err := by
    intro err hres
    subst hres
    simp [AuthHandler, hreq, hnoproof, redirectToConsent, hissue]
  have hfail2 : ∀ challenge err, result = .ok challenge → h.CookieStore.Save r cookie2 = some err →
      AuthHandler lib env h r = .LogError err :: writeAuthorizeError lib env h ar err := by
    intro challenge err hres hsave
    subst hres
    simp [AuthHandler, hreq, hnoproof, redirectToConsent, hissue, hsave]
  have hnone : ∀ err url code,
      Event.Redirect url code ∉ Event.LogError err :: writeAuthorizeError lib env h ar err := by
    intro err url code hmem
    rcases List.mem_cons.mp hmem with hhead | htail
    · cases hhead
    · exact writeAuthorizeError_no_redirect lib env h ar err url code htail
  refine ⟨hok, fun challenge k => find_Set _ _ _ _, hfail1, hfail2, ?_, ?_⟩
  · constructor
    · rintro ⟨url, code, hmem⟩
      cases hres : result with
      | error err =>
        rw [hfail1 err hres] at hmem
        exact absurd hmem (hnone err url code)
      | ok challenge =>
        cases hsave : h.CookieStore.Save r cookie2 with
        | none => exact ⟨⟨challenge, rfl⟩, rfl⟩
        | some err =>
          rw [hfail2 challenge err hres hsave] at hmem
          exact absurd hmem (hnone err url code)
    · rintro ⟨⟨challenge, hres⟩, hsave⟩
      rw [hok challenge hres hsave]
      exact ⟨_, 302, List.mem_cons_of_mem _ (List.mem_singleton.mpr rfl)⟩
  · intro hvalid
    cases hres : result with
    | error err =>
      right
      exact ⟨err, by rw [hfail1 err hres]; simp [writeAuthorizeError, hvalid]⟩
    | ok challenge =>
      cases hsave : h.CookieStore.Save r cookie2 with
      | none => left; exact ⟨⟨challenge, rfl⟩, rfl⟩
      | some err =>
        right
        exact ⟨err, by rw [hfail2 challenge err hres hsave]; simp [writeAuthorizeError, hvalid]⟩

/-- C5, evaluated: without a consent proof the caller is sent to the consent
URL with the challenge, after the cookie was saved. -/
theorem consent_redirect_iff_challenge_and_cookie_witness :
    AuthHandler Demo.lib Demo.env
        (Demo.handler (Demo.engine "" [] [] Time.zero) Demo.consent Demo.cookieStore)
        Demo.request =
      [.SaveCookie ⟨"consent_session", [("nonce", "n")]⟩,
        .Redirect "https://consent.example/consent?challenge=ch" 302] :=
  (consent_redirect_iff_challenge_and_cookie Demo.lib Demo.env
    (Demo.handler (Demo.engine "" [] [] Time.zero) Demo.consent Demo.cookieStore)
    Demo.request (Demo.authorizeRequest "") ⟨"consent_session", [("nonce", "n")]⟩ (.ok "ch")
    rfl (by decide) rfl).1 "ch" rfl rfl

/-- C6: for an authorize request whose consent proof validates, leaving the
cookie `cookie2`: if saving `cookie2` fails with `err`, the handler logs `err`
and calls `writeAuthorizeError` with `fosite.ErrServerError` wrapped in
"Could not store session cookie", whatever `NewAuthorizeResponse` would have
answered, and no authorize response is written; and whenever an authorize
response is written, the cookie was saved and written just before it. -/
theorem cookie_is_persisted_before_authorize_response (lib : Fosite) (env : Env) (h : Handler)
    (r : Request) (ar : AuthorizeRequest) (cookie cookie2 : Cookie) (session : Session)
    (hreq : h.OAuth2.NewAuthorizeRequest r = (ar, none))
    (hproof : ar.RequestForm.Get "consent" ≠ "")
    (hget : h.CookieStore.Get r consentCookieName = (cookie, none))
    (hvalidated : h.Consent.ValidateResponse ar (ar.RequestForm.Get "consent") cookie =
      (cookie2, .ok session)) :
    (∀ err, h.CookieStore.Save r cookie2 = some err →
        (∀ answer : Request → AuthorizeRequest → Session →
            AuthorizeRequest × Except Error AuthorizeResponse,
          AuthHandler lib env
              { h with OAuth2 := { h.OAuth2 with NewAuthorizeResponse := answer } } r =
            .LogError err :: writeAuthorizeError lib env h ar
              (.Wrap lib.ErrServerError ("Could not store session cookie: " ++ err.Text))) ∧
        AuthHandler lib env h r =
          .LogError err :: writeAuthorizeError lib env h ar
            (.Wrap lib.ErrServerError ("Could not store session cookie: " ++ err.Text)) ∧
        ∀ a resp, Event.WriteAuthorizeResponse a resp ∉ AuthHandler lib env h r) ∧
      (∀ a resp, Event.WriteAuthorizeResponse a resp ∈ AuthHandler lib env h r →
        h.CookieStore.Save r cookie2 = none ∧
          AuthHandler lib env h r = [.SaveCookie cookie2, .WriteAuthorizeResponse a resp]) := by
  have hfail : ∀ err, h.CookieStore.Save r cookie2 = some err →
      ∀ answer : Request → AuthorizeRequest → Session →
          AuthorizeRequest × Except Error AuthorizeResponse,
        AuthHandler lib env
            { h with OAuth2 := { h.OAuth2 with NewAuthorizeResponse := answer } } r =
          .LogError err :: writeAuthorizeError lib env h ar
            (.Wrap lib.ErrServerError ("Could not store session cookie: " ++ err.Text)) := by
    intro err hsave answer
    simp [AuthHandler, hreq, hproof, consented, hget, hvalidated, hsave, writeAuthorizeError]
  have hself : ∀ err, h.CookieStore.Save r cookie2 = some err →
      AuthHandler lib env h r =
        .LogError err :: writeAuthorizeError lib env h ar
          (.Wrap lib.ErrServerError ("Could not store session cookie: " ++ err.Text)) := by
    intro err hsave
    simp [AuthHandler, hreq, hproof, consented, hget, hvalidated, hsave]
  have hnone : ∀ e1 e2 a0 a resp,
      Event.WriteAuthorizeResponse a resp ∉ Event.LogError e1 :: writeAuthorizeError lib env h a0 e2 := by
    intro e1 e2 a0 a resp hmem
    rcases List.mem_cons.mp hmem with hhead | htail
    · cases hhead
    · exact writeAuthorizeError_no_response lib env h a0 a e2 resp htail
  constructor
  · intro err hsave
    refine ⟨hfail err hsave, hself err hsave, ?_⟩
    intro a resp hmem
    rw [hself err hsave] at hmem
    exact hnone _ _ ar a resp hmem
  · intro a resp hmem
    cases hsave : h.CookieStore.Save r cookie2 with
    | some err =>
      rw [hself err hsave] at hmem
      exact absurd hmem (hnone _ _ ar a resp)
    | none =>
      refine ⟨rfl, ?_⟩
      have hrun : AuthHandler lib env h r =
          .SaveCookie cookie2 ::
            (match h.OAuth2.NewAuthorizeResponse r ar session with
              | (ar2, .error err) => .LogError err :: writeAuthorizeError lib env h ar2 err
              | (ar2, .ok response) => [.WriteAuthorizeResponse ar2 response]) := by
        simp [AuthHandler, hreq, hproof, consented, hget, hvalidated, hsave]
      rw [hrun] at hmem ⊢
      generalize h.OAuth2.NewAuthorizeResponse r ar session = answer at hmem ⊢
      rcases answer with ⟨ar2, err | response⟩
      · rcases List.mem_cons.mp hmem with hhead | htail
        · cases hhead
        · exact absurd htail (hnone _ _ ar2 a resp)
      · simp only [List.mem_cons, List.mem_singleton, List.not_mem_nil, or_false] at hmem
        rcases hmem with hhead | htail
        · cases hhead
        · cases htail
          rfl

/-- C6, evaluated: the proof validates and the grant would succeed, but the
cookie cannot be saved: the caller gets the server error and no code. -/
theorem cookie_is_persisted_before_authorize_response_witness :
    AuthHandler Demo.lib Demo.env
        (Demo.handler (Demo.engine "proof" [] [] Time.zero) Demo.consent Demo.cookieStoreFull)
        Demo.request =
      [.LogError (.New "disk full"),
        .WriteAuthorizeError (Demo.authorizeRequest "proof")
          (.Wrap (.New "server_error") "Could not store session cookie: disk full")] :=
  ((cookie_is_persisted_before_authorize_response Demo.lib Demo.env
    (Demo.handler (Demo.engine "proof" [] [] Time.zero) Demo.consent Demo.cookieStoreFull)
    Demo.request (Demo.authorizeRequest "proof") ⟨"consent_session", []⟩
    ⟨"consent_session", []⟩ ⟨"u1", "", [], [("user_id", .string "abc")]⟩
    rfl (by decide) rfl rfl).1 (.New "disk full") rfl).2.1

/-! ## The introspection endpoint -/

theorem IsZero_iff (t : Time) : t.IsZero = true ↔ t = Time.zero := by
  cases t with
  | mk sec nsec => simp [Time.IsZero, Time.zero]

theorem IntrospectHandler_ok (env : Env) (h : Handler) (r : Request) (ar : AccessRequest)
    (session : Session)
    (hlookup : h.OAuth2.NewIntrospectionRequest r (NewSession "") = .ok (ar, session)) :
    ∃ log, IntrospectHandler env h r =
        [.HeaderSet "Content-Type" "application/json;charset=UTF-8",
          .EncodeJSON (introspection h ar session)] ++ log ∧
      ∀ e ∈ log, ∃ err, e = Event.LogError err := by
  cases hwrite : env.WriteJSON (introspection h ar session) with
  | none => exact ⟨[], by simp [IntrospectHandler, hlookup, hwrite], by simp⟩
  | some err => exact ⟨[.LogError err], by simp [IntrospectHandler, hlookup, hwrite], by simp⟩

/-- C7: for a successful introspection lookup the handler encodes one result;
its `exp` is the Unix time of the session's access-token expiry when that
expiry is not the zero time, and otherwise the Unix time of `requestedAt`
plus `AccessTokenLifespan`; its `iat` is the Unix time of `requestedAt`. -/
theorem introspection_expiry_and_issue_time (env : Env) (h : Handler) (r : Request)
    (ar : AccessRequest) (session : Session)
    (hlookup : h.OAuth2.NewIntrospectionRequest r (NewSession "") = .ok (ar, session)) :
    (∃ log, IntrospectHandler env h r =
        [.HeaderSet "Content-Type" "application/json;charset=UTF-8",
          .EncodeJSON (introspection h ar session)] ++ log ∧
      ∀ e ∈ log, ∃ err, e = Event.LogError err) ∧
      (session.GetExpiresAt .AccessToken ≠ Time.zero →
        (introspection h ar session).ExpiresAt = (session.GetExpiresAt .AccessToken).Unix) ∧
      (session.GetExpiresAt .AccessToken = Time.zero →
        (introspection h ar session).ExpiresAt =
          (ar.RequestedAt.Add h.AccessTokenLifespan).Unix) ∧
      (introspection h ar session).IssuedAt = ar.RequestedAt.Unix := by
  refine ⟨IntrospectHandler_ok env h r ar session hlookup, ?_, ?_, rfl⟩
  · intro hset
    have hz : (session.GetExpiresAt .AccessToken).IsZero = false := by
      cases hb : (session.GetExpiresAt .AccessToken).IsZero with
      | false => rfl
      | true => exact absurd ((IsZero_iff _).mp hb) hset
    simp [introspection, hz]
  · intro hunset
    have hz : (session.GetExpiresAt .AccessToken).IsZero = true := (IsZero_iff _).mpr hunset
    simp [introspection, hz]

/-- C7, evaluated: a token requested at Unix second 100 with no stored expiry
and a lifespan of one hour has `exp` 3700 and `iat` 100. -/
theorem introspection_expiry_and_issue_time_witness :
    (introspection (Demo.handler (Demo.engine "" [] [] Time.zero) Demo.consent Demo.cookieStore)
        Demo.granted
        (Demo.stored [] Time.zero)).ExpiresAt =
      3700 := by
  rw [(introspection_expiry_and_issue_time Demo.env
    (Demo.handler (Demo.engine "" [] [] Time.zero) Demo.consent Demo.cookieStore) Demo.request
    Demo.granted
    (Demo.stored [] Time.zero) rfl).2.2.1 rfl]
  decide

/-- C8, refuted as stated: the engine accepts the lookup of a token whose
stored expiry is Unix second 100, the clock shows second 200, and the handler
answers `active=true` with `exp` 100 and every claim populated. -/
theorem introspection_active_with_past_expiry :
    IntrospectHandler Demo.env
        (Demo.handler (Demo.engine "" [("user_id", .string "abc")] [] (Time.ofUnix 100))
          Demo.consent Demo.cookieStore)
        Demo.request =
      [.HeaderSet "Content-Type" "application/json;charset=UTF-8",
        .EncodeJSON ⟨true, "client-1", "read write", 100, 100, "u1", "",
          [("user_id", .string "abc")], "client-1"⟩] ∧
    (100 : Int) < Demo.env.Now.Unix := by
  constructor <;> decide

/-- C8, amended: the verdict is the grant engine's.  When the lookup fails the
handler logs the error and writes the engine's introspection error, and
encodes no result; when the lookup succeeds it encodes a result with
`active=true`, the same whatever the clock shows, and writes no introspection
error. -/
theorem introspection_verdict_is_the_engines (env : Env) (h : Handler) (r : Request) :
    (∀ err, h.OAuth2.NewIntrospectionRequest r (NewSession "") = .error err →
        IntrospectHandler env h r = [.LogError err, .WriteIntrospectionError err]) ∧
      (∀ ar session, h.OAuth2.NewIntrospectionRequest r (NewSession "") = .ok (ar, session) →
        (∃ log, IntrospectHandler env h r =
            [.HeaderSet "Content-Type" "application/json;charset=UTF-8",
              .EncodeJSON (introspection h ar session)] ++ log ∧
          ∀ e ∈ log, ∃ err, e = Event.LogError err) ∧
        (introspection h ar session).Active = true ∧
        ∀ now, IntrospectHandler { env with Now := now } h r = IntrospectHandler env h r) := by
  constructor
  · intro err hlookup
    simp [IntrospectHandler, hlookup]
  · intro ar session hlookup
    exact ⟨IntrospectHandler_ok env h r ar session hlookup, rfl, fun _ => rfl⟩

/-- C8 amended, evaluated: a lookup the engine accepts is answered
`active=true` also when the clock is past the expiry. -/
theorem introspection_verdict_is_the_engines_witness :
    (introspection
        (Demo.handler (Demo.engine "" [] [] (Time.ofUnix 100)) Demo.consent Demo.cookieStore)
        Demo.granted
        (Demo.stored [] (Time.ofUnix 100))).Active =
      true :=
  ((introspection_verdict_is_the_engines Demo.env
    (Demo.handler (Demo.engine "" [] [] (Time.ofUnix 100)) Demo.consent Demo.cookieStore)
    Demo.request).2
    Demo.granted
    (Demo.stored [] (Time.ofUnix 100)) rfl).2.1

/-- C9: for a successful introspection lookup the handler encodes one result
whose extra claims are the session's extra claims, unchanged, with
`active=true`, `scope` the granted scopes joined by one space in their stored
order, and `client_id` and `aud` both the client's id. -/
theorem introspection_reproduces_claims (env : Env) (h : Handler) (r : Request)
    (ar : AccessRequest) (session : Session)
    (hlookup : h.OAuth2.NewIntrospectionRequest r (NewSession "") = .ok (ar, session)) :
    (∃ log, IntrospectHandler env h r =
        [.HeaderSet "Content-Type" "application/json;charset=UTF-8",
          .EncodeJSON (introspection h ar session)] ++ log ∧
      ∀ e ∈ log, ∃ err, e = Event.LogError err) ∧
      (introspection h ar session).Extra = session.Extra ∧
      (introspection h ar session).Active = true ∧
      (introspection h ar session).Scope = " ".intercalate ar.GrantedScopes ∧
      (introspection h ar session).ClientID = ar.Client.ID ∧
      (introspection h ar session).Audience = ar.Client.ID :=
  ⟨IntrospectHandler_ok env h r ar session hlookup, rfl, rfl, rfl, rfl, rfl⟩

/-- C9, evaluated: the extra claims `user_id: abc` come back unchanged, and
the scopes `read` and `write` come back as `read write`. -/
theorem introspection_reproduces_claims_witness :
    (introspection
        (Demo.handler (Demo.engine "" [("user_id", .string "abc")] [] Time.zero)
          Demo.consent Demo.cookieStore)
        Demo.granted
        (Demo.stored [("user_id", .string "abc")] Time.zero)).Extra =
      [("user_id", .string "abc")] ∧
    (introspection
        (Demo.handler (Demo.engine "" [("user_id", .string "abc")] [] Time.zero)
          Demo.consent Demo.cookieStore)
        Demo.granted
        (Demo.stored [("user_id", .string "abc")] Time.zero)).Scope =
      "read write" :=
  ⟨(introspection_reproduces_claims Demo.env
    (Demo.handler (Demo.engine "" [("user_id", .string "abc")] [] Time.zero)
      Demo.consent Demo.cookieStore)
    Demo.request
    Demo.granted
    (Demo.stored [("user_id", .string "abc")] Time.zero) rfl).2.1, by decide⟩

end Hydra
